import Mathlib

/-!
# Verification of the Modern Video Downloader front-end

A shallow embedding of the front-end source (`App` in the main page module and
`QueuePane.tsx`) together with proofs about its behaviour.

Modelling conventions:
* JavaScript strings that require character-level reasoning are `List Char`;
  state fields that are only compared wholesale are Lean `String`s.
* Each action dispatcher (`handleThumbnail`, `handlePreview`, `handleDownload`,
  `handleAddToQueue`) is embedded as a *trace* of primitive actions (`Act`):
  the state-setter invocations and the HTTP request it performs, in program
  order.  Applying the trace to an `AppState` (`applyActs`) yields the final
  state, so temporal facts ("clears the error before the request is issued")
  are statements about the trace and functional facts about the applied state.
* A `fetch` and its subsequent `res.json()` are abstracted as a
  `FetchOutcome`: either the promise rejects (`networkError`, carrying the
  exception's optional message) or a response arrives with an `ok` flag, a
  numeric status and a parse result.  The parsed JSON object is viewed through
  the fields the code reads (`Body`).  JSON numbers are exact decimals, hence
  rationals.
* The queue poller is a transition system (`PollSys`, `pollStep`): events are
  the resolution of an in-flight poll response and the effect's teardown
  (which flips the `alive` liveness flag and clears the interval).
-/

namespace MVD

/-! ## JS string primitives -/

/-- The character class recognised by JavaScript's `String.prototype.trim`
(ECMAScript WhiteSpace ∪ LineTerminator). -/
def jsWhitespaceChar (c : Char) : Bool :=
  c.toNat ∈ [0x09, 0x0A, 0x0B, 0x0C, 0x0D, 0x20, 0xA0, 0x1680,
    0x2000, 0x2001, 0x2002, 0x2003, 0x2004, 0x2005, 0x2006, 0x2007,
    0x2008, 0x2009, 0x200A, 0x2028, 0x2029, 0x202F, 0x205F, 0x3000, 0xFEFF]

/-- JavaScript `s.split(sep)` where `sep` matches single characters satisfying
`p`: splitting `""` yields `[""]`, and separators at the ends produce empty
fields, exactly as in JS. -/
def splitOnP (p : Char → Bool) : List Char → List (List Char)
  | [] => [[]]
  | c :: cs =>
    match splitOnP p cs with
    | [] => [[]]
    | r :: rs => if p c then [] :: r :: rs else (c :: r) :: rs

/-- JavaScript `s.trim()`. -/
def jsTrim (s : List Char) : List Char :=
  ((s.dropWhile jsWhitespaceChar).reverse.dropWhile jsWhitespaceChar).reverse

/-- JavaScript `s.endsWith(suffix)`. -/
def jsEndsWith (s suffix : List Char) : Bool :=
  List.isPrefixOf suffix.reverse s.reverse

/-- JavaScript `x || dflt` for `x` a string-or-undefined value: an absent or
empty (falsy) string selects the default. -/
def jsOr (v : Option String) (dflt : String) : String :=
  match v with
  | some s => if s = "" then dflt else s
  | none => dflt

/-! ## `parsedQueueLines` (App.tsx lines 96-101) -/

/-- `queueText.split("\n").map((l) => l.trim()).filter((l) => l.length > 0)`. -/
def parsedQueueLines (queueText : List Char) : List (List Char) :=
  (((splitOnP (fun c => c == '\n') queueText).map jsTrim).filter
    (fun l => decide (0 < l.length)))

/-! ## Data model (QueuePane.tsx `QueueItem`) -/

/-- The closed status set of a queue item. -/
inductive JobStatus where
  | queued
  | running
  | done
  | error
deriving DecidableEq

/-- The optional nested `progress` structure of a queue item.  The values
arrive as JSON numbers, embedded as rationals. -/
structure JobProgress where
  progress_pct : Option ℚ := none
  downloaded_bytes : Option ℚ := none
  total_bytes : Option ℚ := none
  speed : Option ℚ := none
  eta : Option ℚ := none
deriving DecidableEq

/-- One server-reported queue item. -/
structure QueueItem where
  id : String
  url : String
  status : JobStatus
  title : Option String := none
  filepath : Option String := none
  error : Option String := none
  progress : Option JobProgress := none
deriving DecidableEq

/-- The `App` component's local state: one field per `useState` slot. -/
structure AppState where
  url : String
  thumbnailUrl : String
  streamUrl : String
  error : String
  queueText : String
  queue : List QueueItem
deriving DecidableEq

/-! ## Fetch outcomes and dispatcher traces -/

/-- The parsed JSON body, viewed through the fields the code reads.  An absent
field models a missing key (or a non-object body for that key). -/
structure Body where
  detail : Option String := none
  thumbnail : Option String := none
  stream_url : Option String := none
  queue : Option (List QueueItem) := none
deriving DecidableEq

/-- Outcome of one `fetch`: the promise rejects with an exception (whose
`message` may be absent), or a response arrives; `parse` is the outcome of
`res.json()` (`Except.error m` models the parse throwing a `SyntaxError` with
message `m`). -/
inductive FetchOutcome where
  | networkError (msg : Option String)
  | response (ok : Bool) (status : Nat) (parse : Except String Body)

/-- A primitive observable action of the component: a state-setter invocation
or the issuance of an HTTP request. -/
inductive Act where
  | setErrorA (s : String)
  | setThumbnailA (s : String)
  | setStreamA (s : String)
  | setQueueA (q : List QueueItem)
  | requestA (path : String)
deriving DecidableEq

/-- Effect of one action on the component state (requests do not touch it). -/
def applyAct (st : AppState) (a : Act) : AppState :=
  match a with
  | .setErrorA s => { st with error := s }
  | .setThumbnailA s => { st with thumbnailUrl := s }
  | .setStreamA s => { st with streamUrl := s }
  | .setQueueA q => { st with queue := q }
  | .requestA _ => st

/-- Effect of a trace of actions, in program order. -/
def applyActs (st : AppState) (acts : List Act) : AppState :=
  acts.foldl applyAct st

/-- `const j = await res.json().catch(() => ({})); j?.detail || ` followed by
`` `Error ${res.status}` ``: the message of the `Error` thrown on a non-success
status. -/
def httpErrorMsg (status : Nat) (parse : Except String Body) : String :=
  jsOr (match parse with | .ok b => b.detail | .error _ => none)
    ("Error " ++ toString status)

/-- Trace of `handleThumbnail` (App.tsx lines 30-49) for a given fetch
outcome. -/
def thumbnailActs (r : FetchOutcome) : List Act :=
  Act.setErrorA "" :: Act.setThumbnailA "" :: Act.requestA "/api/thumbnail" ::
    match r with
    | .networkError m => [Act.setErrorA (jsOr m "Failed to fetch thumbnail")]
    | .response ok status parse =>
      if ok then
        match parse with
        | .error m => [Act.setErrorA (jsOr (some m) "Failed to fetch thumbnail")]
        | .ok data =>
          Act.setThumbnailA (jsOr data.thumbnail "") ::
            match data.thumbnail with
            | some s =>
              if s = "" then
                [Act.setErrorA (jsOr (some "No thumbnail returned")
                  "Failed to fetch thumbnail")]
              else []
            | none =>
              [Act.setErrorA (jsOr (some "No thumbnail returned")
                "Failed to fetch thumbnail")]
      else
        [Act.setErrorA (jsOr (some (httpErrorMsg status parse))
          "Failed to fetch thumbnail")]

/-- Trace of `handlePreview` (App.tsx lines 51-70). -/
def previewActs (r : FetchOutcome) : List Act :=
  Act.setErrorA "" :: Act.setStreamA "" :: Act.requestA "/api/preview" ::
    match r with
    | .networkError m => [Act.setErrorA (jsOr m "Failed to fetch preview")]
    | .response ok status parse =>
      if ok then
        match parse with
        | .error m => [Act.setErrorA (jsOr (some m) "Failed to fetch preview")]
        | .ok data =>
          Act.setStreamA (jsOr data.stream_url "") ::
            match data.stream_url with
            | some s =>
              if s = "" then
                [Act.setErrorA (jsOr (some "No stream URL returned")
                  "Failed to fetch preview")]
              else []
            | none =>
              [Act.setErrorA (jsOr (some "No stream URL returned")
                "Failed to fetch preview")]
      else
        [Act.setErrorA (jsOr (some (httpErrorMsg status parse))
          "Failed to fetch preview")]

/-- Trace of `handleDownload` (App.tsx lines 72-88). -/
def downloadActs (r : FetchOutcome) : List Act :=
  Act.setErrorA "" :: Act.requestA "/api/download" ::
    match r with
    | .networkError m => [Act.setErrorA (jsOr m "Failed to enqueue download")]
    | .response ok status parse =>
      if ok then []
      else
        [Act.setErrorA (jsOr (some (httpErrorMsg status parse))
          "Failed to enqueue download")]

/-- Trace of `handleAddToQueue` (App.tsx lines 103-119): nothing at all when
the parsed line list is empty (the guard returns before `setError("")`). -/
def addToQueueActs (lines : List (List Char)) (r : FetchOutcome) : List Act :=
  if lines.length = 0 then []
  else
    Act.setErrorA "" :: Act.requestA "/api/queue/add" ::
      match r with
      | .networkError m => [Act.setErrorA (jsOr m "Failed to add to queue")]
      | .response ok status parse =>
        if ok then []
        else
          [Act.setErrorA (jsOr (some (httpErrorMsg status parse))
            "Failed to add to queue")]

/-- End-to-end state effect of one `handleThumbnail` invocation. -/
def handleThumbnail (r : FetchOutcome) (st : AppState) : AppState :=
  applyActs st (thumbnailActs r)

/-- End-to-end state effect of one `handlePreview` invocation. -/
def handlePreview (r : FetchOutcome) (st : AppState) : AppState :=
  applyActs st (previewActs r)

/-- End-to-end state effect of one `handleDownload` invocation. -/
def handleDownload (r : FetchOutcome) (st : AppState) : AppState :=
  applyActs st (downloadActs r)

/-- End-to-end state effect of one `handleAddToQueue` invocation; the line
list is `parsedQueueLines` of the current `queueText`. -/
def handleAddToQueue (r : FetchOutcome) (st : AppState) : AppState :=
  applyActs st (addToQueueActs (parsedQueueLines st.queueText.toList) r)

/-! ## Queue poller (App.tsx lines 131-149)

A tick's continuation is what runs once the in-flight `fetch`/`res.json()`
settles: `if (!res.ok) return; const data = await res.json();
if (alive && data?.queue) setQueue(data.queue)`, with both awaits guarded by
the surrounding `try { } catch { /* ignore */ }`.  A JSON array is always
truthy (also when empty), so `data?.queue` gates only on the field's
presence. -/

/-- The state-setter invocations the tick continuation performs, given the
value of the `alive` flag at continuation time. -/
def tickActs (alive : Bool) (r : FetchOutcome) : List Act :=
  match r with
  | .networkError _ => []
  | .response ok _ parse =>
    if ok then
      match parse with
      | .error _ => []
      | .ok data =>
        match data.queue with
        | some q => if alive then [Act.setQueueA q] else []
        | none => []
    else []

/-- State effect of one tick continuation while the effect is alive. -/
def tickApply (st : AppState) (r : FetchOutcome) : AppState :=
  applyActs st (tickActs true r)

/-- The poller's world: the captured `alive` flag, the component state and a
spy counting `setQueue` invocations. -/
structure PollSys where
  alive : Bool
  st : AppState
  setQueueCalls : Nat
deriving DecidableEq

/-- An event of the poller's lifetime: the resolution of an in-flight poll
response, or the effect teardown (which sets `alive = false` and clears the
interval, so no new requests start afterwards). -/
inductive PollEvent where
  | teardown
  | resolve (r : FetchOutcome)

/-- Number of `setQueue` invocations in a trace. -/
def countSetQueue (acts : List Act) : Nat :=
  (acts.filter fun a => match a with | .setQueueA _ => true | _ => false).length

/-- One step of the poller system. -/
def pollStep (s : PollSys) (e : PollEvent) : PollSys :=
  match e with
  | .teardown => { s with alive := false }
  | .resolve r =>
    { s with
      st := applyActs s.st (tickActs s.alive r)
      setQueueCalls := s.setQueueCalls + countSetQueue (tickActs s.alive r) }

/-- Run the poller system over a sequence of events. -/
def pollRun (s : PollSys) (es : List PollEvent) : PollSys :=
  es.foldl pollStep s

/-! ## `joinApiUrl` (App.tsx lines 8-14, QueuePane.tsx lines 37-43)

`new URL(path.replace(/^\//, ""), apiBase).toString()` is abstracted by a
`resolved : Option (List Char)` parameter: `some u` when WHATWG URL resolution
succeeds with result `u`, `none` when it throws (e.g. `apiBase = ""` or any
base that is not an absolute URL, such as `"a//"`, which has no scheme). -/

/-- `path.replace(/^\//, "")`: remove one leading slash. -/
def stripLeadingSlash (p : List Char) : List Char :=
  match p with
  | '/' :: rest => rest
  | _ => p

/-- The base string the fallback branch prepends:
`apiBase.endsWith("/") ? apiBase : apiBase + "/"`. -/
def basePortion (base : List Char) : List Char :=
  if jsEndsWith base ['/'] then base else base ++ ['/']

/-- The `catch` branch of `joinApiUrl`: naive concatenation. -/
def joinFallback (base path : List Char) : List Char :=
  basePortion base ++ stripLeadingSlash path

/-- `joinApiUrl`, with URL resolution abstracted as described above. -/
def joinApiUrl (resolved : Option (List Char)) (base path : List Char) :
    List Char :=
  match resolved with
  | some u => u
  | none => joinFallback base path

/-- The property the specification claims of the fallback's base portion:
ending with exactly one `/`. -/
def endsWithExactlyOneSlash (b : List Char) : Bool :=
  jsEndsWith b ['/'] && !(jsEndsWith b ['/', '/'])

/-! ## `renderProgress` (QueuePane.tsx lines 86-111) -/

/-- `Math.max(0, Math.min(100, Math.floor(item.progress?.progress_pct ?? 0)))`.
The value arrives from `res.json()`, so it is a JSON number, i.e. an exact
decimal; `Math.floor`/`Math.min`/`Math.max` are exact on such values. -/
def renderedPct (item : QueueItem) : ℤ :=
  max 0 (min 100 ⌊(item.progress.bind (fun p => p.progress_pct)).getD 0⌋)

/-! ## `handleSaveToPC` (QueuePane.tsx lines 45-85) -/

/-- `item.filepath?.split(/[/\\]/)`. -/
def splitOnSlashes (s : List Char) : List (List Char) :=
  splitOnP (fun c => c == '/' || c == '\\') s

/-- `(item.filepath?.split(/[/\\]/).pop() || item.title || "download.mp4")`. -/
def suggestedNameOf (item : QueueItem) : String :=
  jsOr
    (match item.filepath with
     | some fp => some (String.mk ((splitOnSlashes fp.toList).getLastD []))
     | none => none)
    (jsOr item.title "download.mp4")

/-- Result of the per-job file fetch: `ok` flag, status and whether the
response has a body (`resp.body` non-null). -/
structure SaveFetch where
  ok : Bool
  status : Nat
  hasBody : Bool

/-- Outcomes of the external steps `handleSaveToPC` awaits, in program order:
capability probe, `showSaveFilePicker`, `createWritable`, `fetch`,
`pipeTo`.  `Except.error m` models the step throwing with message `m`. -/
structure SaveEnv where
  hasPicker : Bool
  pickerRes : Except String Unit
  writableRes : Except String Unit
  fetchRes : Except String SaveFetch
  pipeRes : Except String Unit

/-- Observable result of a `handleSaveToPC` invocation: the component state
(for which the function owns no setter), the `console.error` log, and the
`download` name of the fallback anchor click when that path is taken. -/
structure SaveResult where
  state : AppState
  consoleLog : List String
  anchorDownload : Option String

/-- `handleSaveToPC`: every failure lands in the surrounding `catch`, which
only calls `console.error`. -/
def handleSaveToPC (env : SaveEnv) (item : QueueItem) (st : AppState) :
    SaveResult :=
  let name := suggestedNameOf item
  if env.hasPicker then
    match env.pickerRes with
    | .error m => ⟨st, [m], none⟩
    | .ok _ =>
      match env.writableRes with
      | .error m => ⟨st, [m], none⟩
      | .ok _ =>
        match env.fetchRes with
        | .error m => ⟨st, [m], none⟩
        | .ok f =>
          if !f.ok || !f.hasBody then
            ⟨st, ["Download failed (" ++ toString f.status ++ ")"], none⟩
          else
            match env.pipeRes with
            | .error m => ⟨st, [m], none⟩
            | .ok _ => ⟨st, [], none⟩
  else
    ⟨st, [], some name⟩

/-! ## Claim-side comparator definitions

These two follow the specification's words (not the code) and are compared
with the embedded tick in the poller theorems. -/

/-- Per the spec: a poll response is well-formed when the HTTP status is a
success, the body parses, and the `queue` field is present; this extracts the
reported snapshot in that case. -/
def specWellFormedQueue : FetchOutcome → Option (List QueueItem)
  | .response true _ (.ok b) => b.queue
  | _ => none

/-- Per the spec: the snapshot displayed after a sequence of poll responses is
the `queue` field of the last well-formed one, initially `cur`. -/
def specLastSnapshot (cur : List QueueItem) :
    List FetchOutcome → List QueueItem
  | [] => cur
  | r :: rs =>
    specLastSnapshot
      (match specWellFormedQueue r with | some q => q | none => cur) rs

/-! ## Theorems -/

/-- C5: `parsedQueueLines` splits on newlines, trims, and drops empty lines:
the result contains no empty string, is a sublist (order- and
multiplicity-preserving) of the trimmed lines, keeps every non-empty trimmed
line with its multiplicity (no deduplication), and the input
`"  a\n\nb \n\n\nc"` yields `["a", "b", "c"]`. -/
theorem parsedQueueLines_spec :
    ∀ s : List Char,
      ([] ∉ parsedQueueLines s)
      ∧ (parsedQueueLines s).Sublist
          ((splitOnP (fun c => c == '\n') s).map jsTrim)
      ∧ (∀ l : List Char, l ≠ [] →
          (parsedQueueLines s).count l =
            ((splitOnP (fun c => c == '\n') s).map jsTrim).count l)
      ∧ parsedQueueLines "  a\n\nb \n\n\nc".toList =
          ["a".toList, "b".toList, "c".toList] := by
  intro s
  refine ⟨?_, ?_, ?_, ?_⟩
  · intro h
    have hp := List.of_mem_filter h
    simp at hp
  · exact List.filter_sublist _
  · intro l hl
    have hp : (fun t : List Char => decide (0 < t.length)) l = true := by
      simp [List.length_pos, hl]
    exact List.count_filter hp
  · decide

/-- Witness for C5 at the spec's example input. -/
theorem parsedQueueLines_w :
    ("b".toList ≠ ([] : List Char))
    ∧ (parsedQueueLines "  a\n\nb \n\n\nc".toList).count "b".toList =
        ((splitOnP (fun c => c == '\n') "  a\n\nb \n\n\nc".toList).map
          jsTrim).count "b".toList :=
  ⟨by decide,
    (parsedQueueLines_spec "  a\n\nb \n\n\nc".toList).2.2.1 "b".toList
      (by decide)⟩

/-- C3 counterexample: for the base `"a//"` — on which WHATWG URL resolution
throws, since `"a//"` contains no scheme and is not an absolute URL — and the
path `"/p"`, the fallback produces `"a//p"`: its base portion ends with two
slashes, not exactly one separating `/`. -/
theorem joinApiUrl_cex :
    joinApiUrl none "a//".toList "/p".toList = "a//p".toList
    ∧ jsEndsWith (basePortion "a//".toList) ['/', '/'] = true
    ∧ endsWithExactlyOneSlash (basePortion "a//".toList) = false := by
  decide

/-- C3 (amended): for every path beginning with `/` and every base on which
URL resolution throws (`resolved = none`), `joinApiUrl` does not throw (it is
total) and returns the fallback concatenation: the base portion — the base
itself when it already ends with `/`, otherwise the base with a single `/`
appended — followed by the stripped path, so the result ends in the stripped
path and the base portion ends with at least one `/` (exactly one whenever the
configured base did not already end with `/`). -/
theorem joinApiUrl_fallback_spec :
    ∀ (base path : List Char), path.head? = some '/' →
      joinApiUrl none base path = joinFallback base path
      ∧ joinFallback base path = basePortion base ++ stripLeadingSlash path
      ∧ jsEndsWith (joinFallback base path) (stripLeadingSlash path) = true
      ∧ jsEndsWith (basePortion base) ['/'] = true
      ∧ (jsEndsWith base ['/'] = false →
          endsWithExactlyOneSlash (basePortion base) = true) := by
  intro base path _
  refine ⟨rfl, rfl, ?_, ?_, ?_⟩
  · unfold joinFallback jsEndsWith
    rw [List.reverse_append]
    have hpre : (stripLeadingSlash path).reverse <+:
        (stripLeadingSlash path).reverse ++ (basePortion base).reverse :=
      List.prefix_append _ _
    exact List.isPrefixOf_iff_prefix.mpr hpre
  · unfold basePortion
    by_cases h : jsEndsWith base ['/'] = true
    · rw [if_pos h]; exact h
    · rw [if_neg h]
      unfold jsEndsWith
      rw [List.reverse_append]
      simp [List.isPrefixOf]
  · intro h
    unfold endsWithExactlyOneSlash basePortion
    rw [if_neg (by rw [h]; exact Bool.false_ne_true)]
    unfold jsEndsWith at h ⊢
    rw [List.reverse_append]
    simp only [List.reverse_cons, List.reverse_nil, List.nil_append,
      List.isPrefixOf] at h ⊢
    simp [h]

/-- Witness for C3 at the spec's example: the empty base (which throws in a
context requiring absolute URLs) and the path `"/api/y"`. -/
theorem joinApiUrl_w :
    ("/api/y".toList.head? = some '/')
    ∧ jsEndsWith (basePortion "".toList) ['/'] = true :=
  ⟨by decide,
    (joinApiUrl_fallback_spec "".toList "/api/y".toList (by decide)).2.2.2.1⟩

/-- C4 counterexample: invoking the add-to-queue dispatcher with an empty
parsed line list (here from the all-whitespace `queueText` `"   \n  "`) and a
prior shared error `"previous failure"` performs no action at all — in
particular it does not clear the shared error state, which persists
unchanged. -/
theorem dispatcherClearsError_cex :
    addToQueueActs (parsedQueueLines "   \n  ".toList)
        (FetchOutcome.networkError none) = []
    ∧ Act.setErrorA "" ∉
        addToQueueActs (parsedQueueLines "   \n  ".toList)
          (FetchOutcome.networkError none)
    ∧ handleAddToQueue (FetchOutcome.networkError none)
        ⟨"", "", "", "previous failure", "   \n  ", []⟩ =
        ⟨"", "", "", "previous failure", "   \n  ", []⟩ := by
  exact ⟨rfl, by decide, rfl⟩

/-- C4 (amended): every dispatcher invocation that proceeds to issue its HTTP
request clears the shared error state first — its action trace begins with
`setError("")`, with the request strictly later.  The thumbnail, preview and
download dispatchers always proceed; the add-to-queue dispatcher proceeds
exactly when the parsed line list is non-empty, and when it is empty the
invocation is a complete no-op that leaves all state (including a prior
error) unchanged. -/
theorem dispatcherClearsError_spec :
    ∀ (r : FetchOutcome) (lines : List (List Char)),
      (∃ t, thumbnailActs r =
        Act.setErrorA "" :: Act.setThumbnailA "" ::
          Act.requestA "/api/thumbnail" :: t)
      ∧ (∃ t, previewActs r =
        Act.setErrorA "" :: Act.setStreamA "" ::
          Act.requestA "/api/preview" :: t)
      ∧ (∃ t, downloadActs r =
        Act.setErrorA "" :: Act.requestA "/api/download" :: t)
      ∧ (lines ≠ [] → ∃ t, addToQueueActs lines r =
          Act.setErrorA "" :: Act.requestA "/api/queue/add" :: t)
      ∧ (∀ st : AppState, applyActs st (addToQueueActs [] r) = st) := by
  intro r lines
  refine ⟨⟨_, rfl⟩, ⟨_, rfl⟩, ⟨_, rfl⟩, ?_, fun _ => rfl⟩
  intro h
  unfold addToQueueActs
  rw [if_neg (by simpa using h)]
  exact ⟨_, rfl⟩

/-- Witness for C4 (amended) at a one-line input. -/
theorem dispatcherClearsError_w :
    (["u".toList] ≠ ([] : List (List Char)))
    ∧ ∃ t, addToQueueActs ["u".toList] (FetchOutcome.networkError none) =
        Act.setErrorA "" :: Act.requestA "/api/queue/add" :: t :=
  ⟨by decide,
    (dispatcherClearsError_spec (FetchOutcome.networkError none)
      ["u".toList]).2.2.2.1 (by decide)⟩

/-- C8: when the parsed line list of the current `queueText` is empty, the
add-to-queue dispatcher issues no network request and leaves the entire state
unchanged. -/
theorem addToQueueNoop_spec :
    ∀ (r : FetchOutcome) (st : AppState),
      parsedQueueLines st.queueText.toList = [] →
        addToQueueActs (parsedQueueLines st.queueText.toList) r = []
        ∧ (∀ p, Act.requestA p ∉
            addToQueueActs (parsedQueueLines st.queueText.toList) r)
        ∧ handleAddToQueue r st = st := by
  intro r st h
  rw [h]
  refine ⟨rfl, ?_, ?_⟩
  · intro p hp
    simp [addToQueueActs] at hp
  · unfold handleAddToQueue
    rw [h]
    rfl

/-- Witness for C8 at the spec's all-whitespace example `"   \n  "`. -/
theorem addToQueueNoop_w :
    parsedQueueLines
        (AppState.queueText ⟨"", "", "", "", "   \n  ", []⟩).toList = []
    ∧ handleAddToQueue (FetchOutcome.networkError none)
        ⟨"", "", "", "", "   \n  ", []⟩ = ⟨"", "", "", "", "   \n  ", []⟩ :=
  ⟨by decide,
    (addToQueueNoop_spec (FetchOutcome.networkError none)
      ⟨"", "", "", "", "   \n  ", []⟩ (by decide)).2.2⟩

/-- A string beginning with the literal `"Error "` is never empty. -/
lemma error_prefix_ne_empty (x : String) : "Error " ++ x ≠ "" := by
  intro h
  have hl := congrArg String.length h
  rw [String.length_append] at hl
  have h6 : ("Error " : String).length = 6 := rfl
  have h0 : ("" : String).length = 0 := rfl
  rw [h6, h0] at hl
  omega

/-- C6: on a non-success response to `/api/preview` whose body carries
`{"detail": "Invalid URL"}`, the shared error becomes exactly
`"Invalid URL"`; when the body is unparseable or lacks `detail`, it becomes
the generic `"Error <status>"`.  In all three cases `streamUrl` ends empty
(cleared before the request, untouched after the failure) and every other
state field is exactly the prior one. -/
theorem previewErrorDetail_spec :
    ∀ (st : AppState) (status : Nat) (b : Body) (m : String),
      handlePreview
          (.response false status (.ok { b with detail := some "Invalid URL" }))
          st =
        { st with streamUrl := "", error := "Invalid URL" }
      ∧ handlePreview (.response false status (.error m)) st =
        { st with streamUrl := "", error := "Error " ++ toString status }
      ∧ handlePreview (.response false status (.ok { b with detail := none }))
          st =
        { st with streamUrl := "", error := "Error " ++ toString status } := by
  intro st status b m
  have hEmsg : ∀ parse : Except String Body,
      handlePreview (.response false status parse) st =
        { st with
            streamUrl := ""
            error := jsOr (some (httpErrorMsg status parse)) "Failed to fetch preview" } :=
    fun _ => rfl
  have hne : ("Error " ++ toString status : String) ≠ "" :=
    error_prefix_ne_empty _
  have hgen : jsOr (some ("Error " ++ toString status))
      "Failed to fetch preview" = "Error " ++ toString status := by
    show (if ("Error " ++ toString status : String) = ""
      then "Failed to fetch preview" else "Error " ++ toString status) =
        "Error " ++ toString status
    rw [if_neg hne]
  refine ⟨?_, ?_, ?_⟩
  · rw [hEmsg]
    have h1 : httpErrorMsg status
        (Except.ok { b with detail := some "Invalid URL" }) = "Invalid URL" := by
      show (if ("Invalid URL" : String) = ""
        then "Error " ++ toString status else "Invalid URL") = "Invalid URL"
      rw [if_neg (by decide)]
    rw [h1]
    have h2 : jsOr (some "Invalid URL") "Failed to fetch preview" =
        "Invalid URL" := by
      show (if ("Invalid URL" : String) = ""
        then "Failed to fetch preview" else "Invalid URL") = "Invalid URL"
      rw [if_neg (by decide)]
    rw [h2]
  · rw [hEmsg]
    have h1 : httpErrorMsg status (Except.error m) =
        "Error " ++ toString status := rfl
    rw [h1, hgen]
  · rw [hEmsg]
    have h1 : httpErrorMsg status (Except.ok { b with detail := none }) =
        "Error " ++ toString status := rfl
    rw [h1, hgen]

/-- C7: a success response to `/api/thumbnail` whose body lacks the
`thumbnail` key, or carries an empty one, is a failure: the shared error
becomes exactly `"No thumbnail returned"` and the displayed thumbnail ends
empty; a success response whose body does not even parse likewise leaves the
thumbnail empty — a success status alone never populates it. -/
theorem thumbnailMissing_spec :
    ∀ (st : AppState) (status : Nat) (b : Body) (m : String),
      handleThumbnail (.response true status (.ok { b with thumbnail := none }))
          st =
        { st with thumbnailUrl := "", error := "No thumbnail returned" }
      ∧ handleThumbnail
          (.response true status (.ok { b with thumbnail := some "" })) st =
        { st with thumbnailUrl := "", error := "No thumbnail returned" }
      ∧ (handleThumbnail (.response true status (.error m)) st).thumbnailUrl =
          "" := by
  intro st status b m
  exact ⟨rfl, rfl, rfl⟩

/-- The tick continuation, while alive, replaces the snapshot on a well-formed
response and does nothing otherwise. -/
lemma tickApply_eq (st : AppState) (r : FetchOutcome) :
    tickApply st r =
      match specWellFormedQueue r with
      | some q => { st with queue := q }
      | none => st := by
  cases r with
  | networkError m => rfl
  | response ok status parse =>
    cases ok with
    | false => rfl
    | true =>
      cases parse with
      | error m => rfl
      | ok b =>
        cases hq : b.queue with
        | none =>
          show applyActs st (tickActs true (.response true status (.ok b))) = _
          rw [tickActs]
          simp only [hq, specWellFormedQueue]
          rfl
        | some q =>
          show applyActs st (tickActs true (.response true status (.ok b))) = _
          rw [tickActs]
          simp only [hq, specWellFormedQueue]
          rfl

/-- Folding ticks preserves every field but the queue, and the queue tracks
the last well-formed snapshot. -/
lemma pollFold_eq :
    ∀ (rs : List FetchOutcome) (st : AppState),
      (rs.foldl tickApply st).queue = specLastSnapshot st.queue rs
      ∧ (rs.foldl tickApply st).error = st.error
      ∧ (rs.foldl tickApply st).thumbnailUrl = st.thumbnailUrl
      ∧ (rs.foldl tickApply st).streamUrl = st.streamUrl
      ∧ (rs.foldl tickApply st).url = st.url
      ∧ (rs.foldl tickApply st).queueText = st.queueText := by
  intro rs
  induction rs with
  | nil => exact fun st => ⟨rfl, rfl, rfl, rfl, rfl, rfl⟩
  | cons r rs ih =>
    intro st
    rcases hw : specWellFormedQueue r with _ | q
    · have ht : tickApply st r = st := by rw [tickApply_eq, hw]
      rw [List.foldl_cons, ht, specLastSnapshot, hw]
      exact ih st
    · have ht : tickApply st r = { st with queue := q } := by
        rw [tickApply_eq, hw]
      rw [List.foldl_cons, ht, specLastSnapshot, hw]
      exact ih { st with queue := q }

/-- C2: over any sequence of poll responses, a tick whose response has a
non-success status, a malformed body, or a missing `queue` field leaves the
snapshot unchanged and surfaces no error (every non-queue field is exactly the
prior one), while a well-formed tick replaces the whole snapshot
unconditionally: the final queue is the last well-formed response's `queue`
field, initially the prior snapshot.  Concretely, with response #2 malformed,
the snapshot after #1-#2 is #1's queue and #3 replaces it when well-formed. -/
theorem pollerSnapshot_spec :
    ∀ (st : AppState) (rs : List FetchOutcome),
      (rs.foldl tickApply st).queue = specLastSnapshot st.queue rs
      ∧ (rs.foldl tickApply st).error = st.error
      ∧ (rs.foldl tickApply st).thumbnailUrl = st.thumbnailUrl
      ∧ (rs.foldl tickApply st).streamUrl = st.streamUrl
      ∧ (rs.foldl tickApply st).url = st.url
      ∧ (rs.foldl tickApply st).queueText = st.queueText
      ∧ ([FetchOutcome.response true 200
            (Except.ok { queue := some [⟨"j1", "u1", JobStatus.done, none,
              none, none, none⟩] }),
          FetchOutcome.response true 200 (Except.error "Unexpected token"),
          FetchOutcome.response true 200
            (Except.ok { queue := some [⟨"j2", "u2", JobStatus.running, none,
              none, none, none⟩] })].foldl tickApply
          ⟨"", "", "", "", "", []⟩).queue =
        [⟨"j2", "u2", JobStatus.running, none, none, none, none⟩]
      ∧ ([FetchOutcome.response true 200
            (Except.ok { queue := some [⟨"j1", "u1", JobStatus.done, none,
              none, none, none⟩] }),
          FetchOutcome.response true 200
            (Except.error "Unexpected token")].foldl tickApply
          ⟨"", "", "", "", "", []⟩).queue =
        [⟨"j1", "u1", JobStatus.done, none, none, none, none⟩] := by
  intro st rs
  rcases pollFold_eq rs st with ⟨h1, h2, h3, h4, h5, h6⟩
  exact ⟨h1, h2, h3, h4, h5, h6, by decide, by decide⟩

/-- A tick continuation that observes `alive = false` performs no
state-setter invocation at all. -/
lemma tickActs_false (r : FetchOutcome) : tickActs false r = [] := by
  cases r with
  | networkError m => rfl
  | response ok status parse =>
    cases ok with
    | false => rfl
    | true =>
      cases parse with
      | error m => rfl
      | ok b => cases hq : b.queue <;> simp [tickActs, hq]

/-- After teardown has flipped the liveness flag, every further event is a
no-op on the whole system. -/
lemma pollStep_dead (s : PollSys) (e : PollEvent) (h : s.alive = false) :
    pollStep s e = s := by
  cases e with
  | teardown =>
    cases s
    simp only [pollStep]
    simp_all
  | resolve r =>
    rw [pollStep, h, tickActs_false]
    cases s
    simp_all [applyActs, countSetQueue]

/-- Runs from a dead system change nothing. -/
lemma pollRun_dead (s : PollSys) (es : List PollEvent) (h : s.alive = false) :
    pollRun s es = s := by
  induction es with
  | nil => rfl
  | cons e es ih =>
    rw [pollRun, List.foldl_cons, pollStep_dead s e h]
    exact ih

/-- Processing the teardown event leaves the system dead. -/
lemma alive_after_teardown (s : PollSys) (es : List PollEvent) :
    (pollRun s (es ++ [PollEvent.teardown])).alive = false := by
  rw [pollRun, List.foldl_append]
  rfl

/-- C1: for every interleaving in which poll responses (to requests issued
before teardown) resolve after the teardown event, the system is exactly what
it was at teardown: the queue snapshot is never replaced and the `setQueue`
spy counter never increases — the liveness flag gates every post-await
write. -/
theorem pollerTeardown_spec :
    ∀ (s : PollSys) (es1 es2 : List PollEvent),
      pollRun s (es1 ++ PollEvent.teardown :: es2) =
        pollRun s (es1 ++ [PollEvent.teardown])
      ∧ (pollRun s (es1 ++ PollEvent.teardown :: es2)).setQueueCalls =
          (pollRun s (es1 ++ [PollEvent.teardown])).setQueueCalls
      ∧ (pollRun s (es1 ++ PollEvent.teardown :: es2)).st.queue =
          (pollRun s (es1 ++ [PollEvent.teardown])).st.queue := by
  intro s es1 es2
  have hsplit : es1 ++ PollEvent.teardown :: es2 =
      (es1 ++ [PollEvent.teardown]) ++ es2 := by simp
  have key : pollRun s (es1 ++ PollEvent.teardown :: es2) =
      pollRun s (es1 ++ [PollEvent.teardown]) := by
    rw [hsplit, pollRun, List.foldl_append]
    exact pollRun_dead _ es2 (alive_after_teardown s es1)
  exact ⟨key, by rw [key], by rw [key]⟩

/-- Floor commutes with capping at the integer bound 100. -/
lemma floor_min_hundred (x : ℚ) : ⌊min (100 : ℚ) x⌋ = min 100 ⌊x⌋ := by
  rcases le_total x 100 with h | h
  · rw [min_eq_right h, min_eq_right]
    calc ⌊x⌋ ≤ ⌊(100 : ℚ)⌋ := Int.floor_le_floor h
      _ = 100 := by norm_num
  · rw [min_eq_left h, min_eq_left]
    · norm_num
    · exact Int.le_floor.mpr (by exact_mod_cast h)

/-- Floor commutes with flooring at the integer bound 0. -/
lemma floor_max_zero (y : ℚ) : ⌊max (0 : ℚ) y⌋ = max 0 ⌊y⌋ := by
  rcases le_total y 0 with h | h
  · rw [max_eq_left h, max_eq_left]
    · norm_num
    · calc ⌊y⌋ ≤ ⌊(0 : ℚ)⌋ := Int.floor_le_floor h
        _ = 0 := by norm_num
  · rw [max_eq_right h, max_eq_right]
    exact Int.le_floor.mpr (by exact_mod_cast h)

/-- C9: the rendered percentage equals the floor of `progress_pct` clamped to
`[0, 100]` (the code floors first and clamps after, which coincides because
the bounds are integers), defaults to 0 when `progress` or `progress_pct` is
absent, and always lies in `[0, 100]` — in particular for negative,
fractional, or greater-than-100 values. -/
theorem renderedPct_spec :
    ∀ item : QueueItem,
      renderedPct item =
        ⌊max (0 : ℚ)
          (min 100 ((item.progress.bind (fun p => p.progress_pct)).getD 0))⌋
      ∧ 0 ≤ renderedPct item
      ∧ renderedPct item ≤ 100
      ∧ renderedPct { item with progress := none } = 0 := by
  intro item
  refine ⟨?_, ?_, ?_, ?_⟩
  · rw [renderedPct, floor_max_zero, floor_min_hundred]
  · exact le_max_left 0 _
  · exact max_le (by norm_num) (min_le_left _ _)
  · rfl

/-- C10: a `handleSaveToPC` invocation never changes any application state
(the function owns no state setter), whatever the capability probe, the
file picker, the writable stream, the per-job fetch, or the stream write do;
and every failing step lands in the `catch`, whose only effect is one
`console.error` entry — the picker throwing, the writable throwing, the fetch
rejecting, a non-success or body-less response, and the pipe failing each
merely log. -/
theorem saveToPC_spec :
    ∀ (env : SaveEnv) (item : QueueItem) (st : AppState) (m : String)
      (status : Nat) (hb : Bool),
      (handleSaveToPC env item st).state = st
      ∧ (handleSaveToPC
          { env with hasPicker := true, pickerRes := Except.error m }
          item st).consoleLog = [m]
      ∧ (handleSaveToPC
          ⟨true, Except.ok (), Except.error m, env.fetchRes, env.pipeRes⟩
          item st).consoleLog = [m]
      ∧ (handleSaveToPC
          ⟨true, Except.ok (), Except.ok (), Except.error m, env.pipeRes⟩
          item st).consoleLog = [m]
      ∧ (handleSaveToPC
          ⟨true, Except.ok (), Except.ok (), Except.ok ⟨false, status, hb⟩,
            env.pipeRes⟩ item st).consoleLog =
          ["Download failed (" ++ toString status ++ ")"]
      ∧ (handleSaveToPC
          ⟨true, Except.ok (), Except.ok (), Except.ok ⟨true, status, false⟩,
            env.pipeRes⟩ item st).consoleLog =
          ["Download failed (" ++ toString status ++ ")"]
      ∧ (handleSaveToPC
          ⟨true, Except.ok (), Except.ok (), Except.ok ⟨true, status, true⟩,
            Except.error m⟩ item st).consoleLog = [m] := by
  intro env item st m status hb
  refine ⟨?_, rfl, rfl, rfl, rfl, rfl, rfl⟩
  rcases env with ⟨hp, p1, p2, p3, p4⟩
  cases hp with
  | false => rfl
  | true =>
    cases p1 with
    | error m1 => rfl
    | ok u1 =>
      cases p2 with
      | error m2 => rfl
      | ok u2 =>
        cases p3 with
        | error m3 => rfl
        | ok f =>
          rcases f with ⟨fok, fst, fhb⟩
          cases fok with
          | false => rfl
          | true =>
            cases fhb with
            | false => rfl
            | true =>
              cases p4 with
              | error m4 => rfl
              | ok u4 => rfl

end MVD
